import Mathlib

/-!
Verification of the feature-extraction statistics of
`BiologicalScience/PlateletsDeposition/Statistics.py` (classes
`DepositionStatistics`, `DepositionIdentityStatistics`,
`DepositionStatisticsCombined`).

Trajectories are embedded as `List (List ℚ)` (a list of T rows, each row a
list of D column values); a batch is a `List` of trajectories.  The numpy
floating-point scalars are modelled by exact rationals, with the final
divisions by a square root carried out in `ℝ` via `Real.sqrt`.  The external
polynomial expansion (`self._polynomial_expansion`, inherited from the abcpy
base class and out of scope per the spec) is an abstract function parameter.
-/

namespace Platelets

/-- `np.mean(x)` / `np.average(x)`: sum divided by length (`0/0 = 0` for the
empty list, where numpy would emit NaN; no claim touches that case). -/
def npMean (x : List ℚ) : ℚ := x.sum / x.length

/-- `np.var(x)` with numpy's default `ddof = 0`: the mean of the squared
deviations from the mean (population variance). -/
def npVar (x : List ℚ) : ℚ := npMean (x.map (fun v => (v - npMean x) ^ 2))

/-- `np.insert(x, 0, 1)`: prepend the constant 1. -/
def insertFront (x : List ℚ) : List ℚ := 1 :: x

/-- `np.insert(y, -1, 1)`: insert the constant 1 immediately BEFORE the last
element of `y` (numpy's position `-1` is index `len(y) - 1`, and insertion
happens before that index). -/
def insertBeforeLast (y : List ℚ) : List ℚ :=
  y.take (y.length - 1) ++ 1 :: y.drop (y.length - 1)

/-- Numerator of `DepositionStatistics._cross_covariance` (line 70):
`np.mean(np.insert(x,0,1)*np.insert(y,-1,1)) - np.mean(np.insert(x,0,1))*np.mean(np.insert(y,-1,1))`. -/
def crossNum (x y : List ℚ) : ℚ :=
  npMean (List.zipWith (· * ·) (insertFront x) (insertBeforeLast y)) -
    npMean (insertFront x) * npMean (insertBeforeLast y)

/-- Radicand of the denominator of `_cross_covariance` (line 71):
`np.var(np.insert(x,0,1))*np.var(np.insert(y,-1,1))`. -/
def crossDen (x y : List ℚ) : ℚ :=
  npVar (insertFront x) * npVar (insertBeforeLast y)

/-- `DepositionStatistics._cross_covariance` (lines 55-73). -/
noncomputable def cross_covariance (x y : List ℚ) : ℝ :=
  (crossNum x y : ℝ) / Real.sqrt (crossDen x y)

/-- The accumulated loop sum of `DepositionStatistics._auto_covariance`
(lines 96-98): `autoCov += (x[ind+lag]-x_mean)*(x[ind]-x_mean)` for
`ind in range(0, N-lag)`. -/
def autoCovSum (x : List ℚ) (lag : ℕ) : ℚ :=
  ((List.range (x.length - lag)).map
    (fun i => (x.getD (i + lag) 0 - npMean x) * (x.getD i 0 - npMean x))).sum

/-- `DepositionStatistics._auto_covariance` (lines 76-99):
`((1/(N-1))*autoCov)/np.var(x)`. -/
def auto_covariance (x : List ℚ) (lag : ℕ) : ℚ :=
  1 / ((x.length : ℚ) - 1) * autoCovSum x lag / npVar x

/-- The hard-coded pair index list `II` (line 34). -/
def II : List (ℕ × ℕ) := [(1, 2), (1, 3), (1, 4), (2, 3), (2, 4), (3, 4)]

/-- Column `j` of a trajectory: `data_ind_element[:, j]`. -/
def col (A : List (List ℚ)) (j : ℕ) : List ℚ := A.map (fun r => r.getD j 0)

/-- Numerator of the correlation entry `s4[ind]` (lines 39-40):
`np.mean(x*y) - np.mean(x)*np.mean(y)` for two columns `x`, `y`. -/
def corrNum (x y : List ℚ) : ℚ :=
  npMean (List.zipWith (· * ·) x y) - npMean x * npMean y

/-- Radicand of the denominator of `s4[ind]` (line 41):
`np.var(x)*np.var(y)`. -/
def corrDen (x y : List ℚ) : ℚ := npVar x * npVar y

/-- The correlation entry `s4[ind]` of `DepositionStatistics.statistics`
(lines 39-41), as a function of the two columns. -/
noncomputable def corrPair (x y : List ℚ) : ℝ :=
  (corrNum x y : ℝ) / Real.sqrt (corrDen x y)

/-- One pre-expansion output row of `DepositionStatistics.statistics`
(lines 24-48): the concatenation `s1 ++ s2 ++ s3 ++ s4 ++ s5` assigned to
`result[ind_element, :]`, where `D = data_ind_element.shape[1]`. -/
noncomputable def statisticsRow (A : List (List ℚ)) : List ℝ :=
  let D := (A.headD []).length
  let s1 := (((List.range D).map (fun j => npMean (col A j))).drop 1).map
    (fun q => (q : ℝ))
  let s2 := (((List.range D).map (fun j => npVar (col A j))).drop 1).map
    (fun q => (q : ℝ))
  let s3 := (List.range (D - 1)).map
    (fun ind => ((auto_covariance (col A (ind + 1)) 1 : ℚ) : ℝ))
  let s4 := II.map (fun p => corrPair (col A p.1) (col A p.2))
  let s5 := II.map (fun p => cross_covariance (col A p.1) (col A p.2))
  s1 ++ s2 ++ s3 ++ s4 ++ s5

/-- The pre-expansion result matrix of `DepositionStatistics.statistics`
(lines 20-48): row `ind_element` is `statisticsRow data[ind_element]`. -/
noncomputable def statisticsPre (data : List (List (List ℚ))) : List (List ℝ) :=
  data.map statisticsRow

/-- `DepositionStatistics.statistics` (lines 19-53): the pre-expansion matrix
followed by the external polynomial expansion `E` (the abcpy collaborator
`self._polynomial_expansion`, abstract here). -/
noncomputable def statistics (E : List (List ℝ) → List (List ℝ))
    (data : List (List (List ℚ))) : List (List ℝ) :=
  E (statisticsPre data)

/-- `DepositionIdentityStatistics.statistics` (lines 116-118): `return data[0]`.
The configuration fields `degree` and `cross` set in `__init__` are carried as
arguments to record that the method ignores them. -/
def identityStatistics (degree : ℕ) (cross : Bool)
    (data : List (List (List ℚ))) : List (List ℚ) :=
  data.headD []

/-- `DepositionStatisticsCombined._cross_covariance` (lines 171-189), a
verbatim duplicate of lines 55-73. -/
noncomputable def cCrossCovariance (x y : List ℚ) : ℝ :=
  ((npMean (List.zipWith (· * ·) (insertFront x) (insertBeforeLast y)) -
      npMean (insertFront x) * npMean (insertBeforeLast y) : ℚ) : ℝ) /
    Real.sqrt ((npVar (insertFront x) * npVar (insertBeforeLast y) : ℚ) : ℝ)

/-- `DepositionStatisticsCombined._auto_covariance` (lines 192-215), a
verbatim duplicate of lines 76-99. -/
def cAutoCovariance (x : List ℚ) (lag : ℕ) : ℚ :=
  1 / ((x.length : ℚ) - 1) *
      ((List.range (x.length - lag)).map
        (fun i => (x.getD (i + lag) 0 - npMean x) * (x.getD i 0 - npMean x))).sum /
    npVar x

/-- One pre-expansion row of `DepositionStatisticsCombined.statistics`
(lines 139-164), a verbatim duplicate of lines 23-48. -/
noncomputable def cStatisticsRow (A : List (List ℚ)) : List ℝ :=
  let D := (A.headD []).length
  let s1 := (((List.range D).map (fun j => npMean (col A j))).drop 1).map
    (fun q => (q : ℝ))
  let s2 := (((List.range D).map (fun j => npVar (col A j))).drop 1).map
    (fun q => (q : ℝ))
  let s3 := (List.range (D - 1)).map
    (fun ind => ((cAutoCovariance (col A (ind + 1)) 1 : ℚ) : ℝ))
  let s4 := [(1, 2), (1, 3), (1, 4), (2, 3), (2, 4), (3, 4)].map
    (fun p : ℕ × ℕ =>
      ((npMean (List.zipWith (· * ·) (col A p.1) (col A p.2)) -
          npMean (col A p.1) * npMean (col A p.2) : ℚ) : ℝ) /
        Real.sqrt ((npVar (col A p.1) * npVar (col A p.2) : ℚ) : ℝ))
  let s5 := [(1, 2), (1, 3), (1, 4), (2, 3), (2, 4), (3, 4)].map
    (fun p : ℕ × ℕ => cCrossCovariance (col A p.1) (col A p.2))
  s1 ++ s2 ++ s3 ++ s4 ++ s5

/-- `DepositionStatisticsCombined.statistics` (lines 135-169): same body as
`DepositionStatistics.statistics` but returning `[result, data[0]]`, modelled
as the pair of the expanded matrix and the first trajectory. -/
noncomputable def combinedStatistics (E : List (List ℝ) → List (List ℝ))
    (data : List (List (List ℚ))) : List (List ℝ) × List (List ℚ) :=
  (E (data.map cStatisticsRow), data.headD [])

/-! ### Spec-side definitions

These follow the wording of the claims under scrutiny, to be compared with
the embeddings above. -/

/-- The unbiased sample variance (denominator `N - 1`) named by claim C1. -/
def sampleVar (x : List ℚ) : ℚ :=
  (x.map (fun v => (v - npMean x) ^ 2)).sum / ((x.length : ℚ) - 1)

/-- Claim C1's description of `_auto_covariance(x, lag=1)`: the sum over
`t = 0..N-2` of `(x[t+1] - mean x) * (x[t] - mean x)`, divided by `N - 1`,
then divided by the unbiased sample variance of `x`. -/
def claimAutoCov (x : List ℚ) : ℚ :=
  (∑ t in Finset.range (x.length - 1),
      (x.getD (t + 1) 0 - npMean x) * (x.getD t 0 - npMean x)) /
    ((x.length : ℚ) - 1) / sampleVar x

/-- Numerator of the textbook Pearson correlation coefficient of two series:
the sum of products of paired deviations from the means. -/
def pearsonNum (a b : List ℚ) : ℚ :=
  (List.zipWith (fun u v => (u - npMean a) * (v - npMean b)) a b).sum

/-- Radicand of the denominator of the textbook Pearson correlation
coefficient: the product of the two sums of squared deviations. -/
def pearsonDen (a b : List ℚ) : ℚ :=
  (a.map (fun u => (u - npMean a) ^ 2)).sum * (b.map (fun v => (v - npMean b) ^ 2)).sum

/-- The textbook Pearson correlation coefficient of two series. -/
noncomputable def pearsonR (a b : List ℚ) : ℝ :=
  (pearsonNum a b : ℝ) / Real.sqrt (pearsonDen a b)

/-- Claim C2's description of `_cross_covariance(x, y)`: the Pearson
correlation coefficient of `1 :: x` and of `y` with the constant 1 APPENDED
at the end. -/
noncomputable def claimCrossCov (x y : List ℚ) : ℝ :=
  pearsonR (1 :: x) (y ++ [1])

/-- Whether the IEEE evaluation of `num / sqrt den` (with `num`, `den` the
exactly-computed rational operands) is NaN: the square root of a negative
radicand is NaN and propagates, and otherwise only `0 / 0` is NaN
(`num / 0` with `num ≠ 0` is a signed infinity, and `den > 0` gives a real
number). -/
def ieeeNaN (num den : ℚ) : Bool :=
  decide ((den = 0 ∧ num = 0) ∨ den < 0)

/-- The synthetic trajectory of claim C7: a `5 × 5` matrix whose column `k`
(for `k = 1..4`) holds `k * t` at row `t`, with arbitrary column 0. -/
def rampTraj (a0 a1 a2 a3 a4 : ℚ) : List (List ℚ) :=
  [[a0, 0, 0, 0, 0], [a1, 1, 2, 3, 4], [a2, 2, 4, 6, 8],
   [a3, 3, 6, 9, 12], [a4, 4, 8, 12, 16]]

/-! ### Covariance and Pearson identities -/

/-- Expanding a sum of products of shifted values over two equal-length
lists. -/
lemma zipWith_centered_sum (c d : ℚ) (a : List ℚ) :
    ∀ b : List ℚ, a.length = b.length →
      (List.zipWith (fun u v => (u - c) * (v - d)) a b).sum =
        (List.zipWith (· * ·) a b).sum - d * a.sum - c * b.sum +
          (a.length : ℚ) * (c * d) := by
  induction a with
  | nil =>
    intro b hb
    obtain rfl : b = [] := (List.length_eq_zero.mp hb.symm)
    simp
  | cons u a ih =>
    intro b hb
    cases b with
    | nil => simp at hb
    | cons v b =>
      have h := ih b (by simpa using hb)
      simp only [List.zipWith_cons_cons, List.sum_cons, List.length_cons, h]
      push_cast
      ring

/-- `np.var` is the population variance: the sum of squared deviations from
the mean divided by the length. -/
lemma npVar_eq_sum (a : List ℚ) :
    npVar a = (a.map (fun v => (v - npMean a) ^ 2)).sum / (a.length : ℚ) := by
  unfold npVar npMean
  rw [List.length_map]

/-- The mean-of-products covariance numerator is the centered-sum covariance
numerator divided by the length. -/
lemma corrNum_eq_pearsonNum (a b : List ℚ) (h : a.length = b.length)
    (ha : a ≠ []) : corrNum a b = pearsonNum a b / (a.length : ℚ) := by
  have hn : ((a.length : ℚ)) ≠ 0 := by
    exact_mod_cast fun h0 => ha (List.length_eq_zero.mp (Nat.cast_injective h0))
  have hz : (List.zipWith (· * ·) a b).length = a.length := by
    rw [List.length_zipWith, ← h, min_self]
  unfold corrNum pearsonNum npMean
  rw [zipWith_centered_sum (a.sum / (a.length : ℚ)) (b.sum / (b.length : ℚ)) a b h,
    hz, ← h]
  field_simp
  ring

/-- The product of the two population variances is the product of the two
centered sums of squares divided by the squared length. -/
lemma corrDen_eq_pearsonDen (a b : List ℚ) (h : a.length = b.length) :
    corrDen a b = pearsonDen a b / (a.length : ℚ) ^ 2 := by
  unfold corrDen pearsonDen
  rw [npVar_eq_sum, npVar_eq_sum, ← h]
  ring

/-- The biased normalizations in the numerator and the denominator of the
correlation entry cancel: it is the textbook Pearson correlation
coefficient. -/
lemma corrPair_eq_pearsonR (a b : List ℚ) (h : a.length = b.length)
    (ha : a ≠ []) : corrPair a b = pearsonR a b := by
  have hn : (0 : ℝ) < (a.length : ℝ) := by
    exact_mod_cast List.length_pos.mpr ha
  unfold corrPair pearsonR
  rw [corrNum_eq_pearsonNum a b h ha, corrDen_eq_pearsonDen a b h]
  push_cast
  rw [Real.sqrt_div' _ (by positivity : (0 : ℝ) ≤ ((a.length : ℝ)) ^ 2),
    Real.sqrt_sq (le_of_lt hn)]
  rw [div_div_div_comm, div_self (ne_of_gt hn), div_one]

/-! ### Claim theorems -/

/-- Claim C8: `DepositionIdentityStatistics.statistics` returns the first
trajectory of the batch exactly, ignoring every other trajectory and the
`degree`/`cross` configuration fields. -/
theorem identityStatistics_first (degree : ℕ) (cross : Bool)
    (A : List (List ℚ)) (rest : List (List (List ℚ))) :
    identityStatistics degree cross (A :: rest) = A := rfl

/-- Claim C4: on a nonempty batch, `DepositionStatisticsCombined.statistics`
returns the pair of `DepositionStatistics.statistics` on the same batch (with
the same expansion configuration `E`) and the unchanged first trajectory: the
duplicated computation bodies of the two classes are equivalent. -/
theorem combinedStatistics_refines (E : List (List ℝ) → List (List ℝ))
    (A : List (List ℚ)) (rest : List (List (List ℚ))) :
    combinedStatistics E (A :: rest) = (statistics E (A :: rest), A) := rfl

/-- Claim C5: the pre-expansion result of `DepositionStatistics.statistics`
has one row per input trajectory, the `i`-th row is `statisticsRow` of the
`i`-th input trajectory alone, and a permutation of the batch permutes the
pre-expansion rows correspondingly. -/
theorem statisticsPre_rows (data data' : List (List (List ℚ))) (i : ℕ)
    (hp : data.Perm data') :
    (statisticsPre data).length = data.length ∧
    (statisticsPre data)[i]? = data[i]?.map statisticsRow ∧
    (statisticsPre data).Perm (statisticsPre data') :=
  ⟨by simp [statisticsPre], by simp [statisticsPre], hp.map _⟩

/-- Witness for `statisticsPre_rows` at the two-trajectory batch
`[[[1]], [[2]]]` and its transposition. -/
theorem statisticsPre_rows_witness :
    (statisticsPre [[[1]], [[2]]]).length =
      ([[[1]], [[2]]] : List (List (List ℚ))).length ∧
    (statisticsPre [[[1]], [[2]]])[0]? =
      ([[[1]], [[2]]] : List (List (List ℚ)))[0]?.map statisticsRow ∧
    (statisticsPre [[[1]], [[2]]]).Perm (statisticsPre [[[2]], [[1]]]) :=
  statisticsPre_rows [[[1]], [[2]]] [[[2]], [[1]]] 0 (List.Perm.swap [[2]] [[1]] [])

/-- Counterexample to claim C1: on `x = [0, 1]` the code's
`_auto_covariance(x, 1)` returns `-1` (its denominator is the population
variance `1/4`), while the claimed formula with the unbiased sample variance
(denominator `N - 1`) gives `-1/2`. -/
theorem auto_covariance_claim_false :
    auto_covariance [0, 1] 1 = -1 ∧ claimAutoCov [0, 1] = -1 / 2 ∧
      auto_covariance [0, 1] 1 ≠ claimAutoCov [0, 1] := by
  norm_num [auto_covariance, claimAutoCov, autoCovSum, sampleVar, npVar, npMean,
    List.range_succ, Finset.sum_range_succ]

/-- Claim C1 as amended: for a series of length `N > 1`,
`_auto_covariance(x, 1)` is the sum over `t = 0..N-2` of
`(x[t+1] - mean) * (x[t] - mean)`, divided by `N - 1`, then divided by the
POPULATION variance of `x` (sum of squared deviations over `N`). -/
theorem auto_covariance_eq_popvar (x : List ℚ) (h : 1 < x.length) :
    auto_covariance x 1 =
      (∑ t in Finset.range (x.length - 1),
          (x.getD (t + 1) 0 - npMean x) * (x.getD t 0 - npMean x)) /
        ((x.length : ℚ) - 1) /
        ((x.map (fun v => (v - npMean x) ^ 2)).sum / (x.length : ℚ)) := by
  have hb : (∑ t in Finset.range (x.length - 1),
      (x.getD (t + 1) 0 - npMean x) * (x.getD t 0 - npMean x)) =
      ((List.range (x.length - 1)).map
        (fun i => (x.getD (i + 1) 0 - npMean x) * (x.getD i 0 - npMean x))).sum := rfl
  rw [hb]
  unfold auto_covariance autoCovSum npVar npMean
  rw [List.length_map]
  ring

/-- Witness for `auto_covariance_eq_popvar` at `x = [0, 1]`. -/
theorem auto_covariance_eq_popvar_witness :
    auto_covariance [0, 1] 1 =
      (∑ t in Finset.range (([0, 1] : List ℚ).length - 1),
          (([0, 1] : List ℚ).getD (t + 1) 0 - npMean [0, 1]) *
            (([0, 1] : List ℚ).getD t 0 - npMean [0, 1])) /
        ((([0, 1] : List ℚ).length : ℚ) - 1) /
        ((([0, 1] : List ℚ).map (fun v => (v - npMean [0, 1]) ^ 2)).sum /
          (([0, 1] : List ℚ).length : ℚ)) :=
  auto_covariance_eq_popvar [0, 1] (by decide)

/-- A column of a trajectory whose rows are all equal is constant. -/
lemma col_replicate (T : ℕ) (r : List ℚ) (j : ℕ) :
    col (List.replicate T r) j = List.replicate T (r.getD j 0) := by
  simp [col, List.map_replicate]

/-- The mean of a nonempty constant series is its value. -/
lemma npMean_replicate (T : ℕ) (hT : 0 < T) (c : ℚ) :
    npMean (List.replicate T c) = c := by
  unfold npMean
  rw [List.sum_replicate, List.length_replicate, nsmul_eq_mul]
  exact mul_div_cancel_left₀ c (Nat.cast_ne_zero.mpr hT.ne')

/-- The population variance of a nonempty constant series is zero. -/
lemma npVar_replicate (T : ℕ) (hT : 0 < T) (c : ℚ) :
    npVar (List.replicate T c) = 0 := by
  unfold npVar
  rw [npMean_replicate T hT c, List.map_replicate]
  simp [npMean, List.sum_replicate]

/-- Elementwise product of two constant series of the same length. -/
lemma zipWith_mul_replicate (T : ℕ) (c d : ℚ) :
    List.zipWith (· * ·) (List.replicate T c) (List.replicate T d) =
      List.replicate T (c * d) := by
  induction T with
  | zero => rfl
  | succ n ih => simp [List.replicate_succ, ih]

/-- The covariance numerator of two nonempty constant series is zero. -/
lemma corrNum_replicate (T : ℕ) (hT : 0 < T) (c d : ℚ) :
    corrNum (List.replicate T c) (List.replicate T d) = 0 := by
  unfold corrNum
  rw [zipWith_mul_replicate, npMean_replicate T hT, npMean_replicate T hT,
    npMean_replicate T hT, sub_self]

/-- Counterexample to claim C2: on `x = [0, 1]`, `y = [0, 0]` the code's
`_cross_covariance(x, y)` returns `-1` (numpy's `np.insert(y, -1, 1)` places
the 1 BEFORE the last element, pairing `x` against `[0, 1, 0]`), while the
Pearson coefficient of `[1, 0, 1]` against `y` with 1 appended at the end
(`[0, 0, 1]`) is `1/2`. -/
theorem cross_covariance_claim_false :
    cross_covariance [0, 1] [0, 0] = -1 ∧
      claimCrossCov [0, 1] [0, 0] = 1 / 2 ∧
      cross_covariance [0, 1] [0, 0] ≠ claimCrossCov [0, 1] [0, 0] := by
  have hn : crossNum [0, 1] [0, 0] = -2 / 9 := by
    norm_num [crossNum, npMean, insertFront, insertBeforeLast]
  have hd : crossDen [0, 1] [0, 0] = 4 / 81 := by
    norm_num [crossDen, npVar, npMean, insertFront, insertBeforeLast]
  have h1 : cross_covariance [0, 1] [0, 0] = -1 := by
    unfold cross_covariance
    rw [hn, hd, show ((4 / 81 : ℚ) : ℝ) = (2 / 9 : ℝ) ^ 2 by norm_num,
      Real.sqrt_sq (by norm_num : (0 : ℝ) ≤ 2 / 9)]
    norm_num
  have hpn : pearsonNum (1 :: [0, 1]) ([0, 0] ++ [1]) = 1 / 3 := by
    norm_num [pearsonNum, npMean]
  have hpd : pearsonDen (1 :: [0, 1]) ([0, 0] ++ [1]) = 4 / 9 := by
    norm_num [pearsonDen, npMean]
  have h2 : claimCrossCov [0, 1] [0, 0] = 1 / 2 := by
    unfold claimCrossCov pearsonR
    rw [hpn, hpd, show ((4 / 9 : ℚ) : ℝ) = (2 / 3 : ℝ) ^ 2 by norm_num,
      Real.sqrt_sq (by norm_num : (0 : ℝ) ≤ 2 / 3)]
    norm_num
  exact ⟨h1, h2, by rw [h1, h2]; norm_num⟩

/-- Claim C2 as amended: for equal-length series, `_cross_covariance(x, y)`
is the Pearson correlation coefficient of `1 :: x` and of the series obtained
from `y` by inserting the constant 1 immediately BEFORE its last element
(`y[0..N-2] ++ [1, y[N-1]]`), not of `y` followed by 1. -/
theorem cross_covariance_eq_pearson (x y : List ℚ) (h : x.length = y.length) :
    cross_covariance x y = pearsonR (insertFront x) (insertBeforeLast y) := by
  have hlen : (insertFront x).length = (insertBeforeLast y).length := by
    simp only [insertFront, insertBeforeLast, List.length_cons,
      List.length_append, List.length_take, List.length_drop]
    omega
  exact corrPair_eq_pearsonR (insertFront x) (insertBeforeLast y) hlen
    (by simp [insertFront])

/-- Witness for `cross_covariance_eq_pearson` at `x = [0, 1]`,
`y = [0, 0]`. -/
theorem cross_covariance_eq_pearson_witness :
    cross_covariance [0, 1] [0, 0] =
      pearsonR (insertFront [0, 1]) (insertBeforeLast [0, 0]) :=
  cross_covariance_eq_pearson [0, 1] [0, 0] (by decide)

/-- Claim C9: `np.var` as used for the variance sub-vector and in every
denominator is the population (biased) variance, the sum of squared
deviations divided by the length `N` (not `N - 1`); the lag-1 autocovariance
entry divides by exactly that quantity; and the biased normalizations of the
correlation entry cancel, making it the textbook Pearson correlation
coefficient. -/
theorem popVariance_and_pearson (x y : List ℚ) (h : x.length = y.length)
    (hx : x ≠ []) :
    npVar x = (x.map (fun v => (v - npMean x) ^ 2)).sum / (x.length : ℚ) ∧
    auto_covariance x 1 =
      1 / ((x.length : ℚ) - 1) * autoCovSum x 1 /
        ((x.map (fun v => (v - npMean x) ^ 2)).sum / (x.length : ℚ)) ∧
    corrPair x y = pearsonR x y :=
  ⟨npVar_eq_sum x,
    by unfold auto_covariance; rw [npVar_eq_sum],
    corrPair_eq_pearsonR x y h hx⟩

/-- Witness for `popVariance_and_pearson` at `x = [1, 2]`, `y = [3, 5]`. -/
theorem popVariance_and_pearson_witness :
    npVar [1, 2] =
      (([1, 2] : List ℚ).map (fun v => (v - npMean [1, 2]) ^ 2)).sum /
        ((([1, 2] : List ℚ).length : ℚ)) ∧
    auto_covariance [1, 2] 1 =
      1 / (((([1, 2] : List ℚ).length : ℚ)) - 1) * autoCovSum [1, 2] 1 /
        ((([1, 2] : List ℚ).map (fun v => (v - npMean [1, 2]) ^ 2)).sum /
          ((([1, 2] : List ℚ).length : ℚ))) ∧
    corrPair [1, 2] [3, 5] = pearsonR [1, 2] [3, 5] :=
  popVariance_and_pearson [1, 2] [3, 5] (by decide) (by decide)

/-- Claim C7: on the synthetic ramp trajectory, the mean computed for column
`k` is `2 * k` and the variance computed for column `k` is `2 * k ^ 2`
(`k ^ 2` times the population variance 2 of `[0, 1, 2, 3, 4]`), whatever the
values of the ignored column 0; consequently the first eight entries of the
pre-expansion statistics row are `[2, 4, 6, 8, 2, 8, 18, 32]`. -/
theorem rampTraj_mean_var (a0 a1 a2 a3 a4 : ℚ) :
    (npMean (col (rampTraj a0 a1 a2 a3 a4) 1) = 2 * 1 ∧
      npMean (col (rampTraj a0 a1 a2 a3 a4) 2) = 2 * 2 ∧
      npMean (col (rampTraj a0 a1 a2 a3 a4) 3) = 2 * 3 ∧
      npMean (col (rampTraj a0 a1 a2 a3 a4) 4) = 2 * 4) ∧
    (npVar (col (rampTraj a0 a1 a2 a3 a4) 1) = 2 * 1 ^ 2 ∧
      npVar (col (rampTraj a0 a1 a2 a3 a4) 2) = 2 * 2 ^ 2 ∧
      npVar (col (rampTraj a0 a1 a2 a3 a4) 3) = 2 * 3 ^ 2 ∧
      npVar (col (rampTraj a0 a1 a2 a3 a4) 4) = 2 * 4 ^ 2) ∧
    (statisticsRow (rampTraj a0 a1 a2 a3 a4)).take 8 =
      ([2, 4, 6, 8, 2, 8, 18, 32] : List ℚ).map (fun q => (q : ℝ)) := by
  refine ⟨⟨?_, ?_, ?_, ?_⟩, ⟨?_, ?_, ?_, ?_⟩, ?_⟩ <;>
    simp [rampTraj, col, npMean, npVar, statisticsRow, II, List.range_succ] <;>
    norm_num

/-- Claim C3: a pre-expansion output row of `DepositionStatistics.statistics`
for a trajectory with `D = 5` columns is exactly the 24-element concatenation,
in this order, of the means of columns 1..4, the variances of columns 1..4,
the lag-1 autocovariance coefficients of columns 1..4, the correlation
entries for the six pairs `(1,2),(1,3),(1,4),(2,3),(2,4),(3,4)`, and the
lag-1 cross-covariances for the same six pairs — column 0 appears in no
entry. -/
theorem statisticsRow_layout (data : List (List (List ℚ)))
    (A : List (List ℚ)) (hA : A ∈ data) (h5 : (A.headD []).length = 5) :
    statisticsRow A ∈ statisticsPre data ∧
    statisticsRow A =
      ([npMean (col A 1), npMean (col A 2), npMean (col A 3),
          npMean (col A 4)].map (fun q : ℚ => (q : ℝ))) ++
      ([npVar (col A 1), npVar (col A 2), npVar (col A 3),
          npVar (col A 4)].map (fun q : ℚ => (q : ℝ))) ++
      ([auto_covariance (col A 1) 1, auto_covariance (col A 2) 1,
          auto_covariance (col A 3) 1,
          auto_covariance (col A 4) 1].map (fun q : ℚ => (q : ℝ))) ++
      [corrPair (col A 1) (col A 2), corrPair (col A 1) (col A 3),
        corrPair (col A 1) (col A 4), corrPair (col A 2) (col A 3),
        corrPair (col A 2) (col A 4), corrPair (col A 3) (col A 4)] ++
      [cross_covariance (col A 1) (col A 2),
        cross_covariance (col A 1) (col A 3),
        cross_covariance (col A 1) (col A 4),
        cross_covariance (col A 2) (col A 3),
        cross_covariance (col A 2) (col A 4),
        cross_covariance (col A 3) (col A 4)] ∧
    (statisticsRow A).length = 24 := by
  have hrow : statisticsRow A =
      ([npMean (col A 1), npMean (col A 2), npMean (col A 3),
          npMean (col A 4)].map (fun q : ℚ => (q : ℝ))) ++
      ([npVar (col A 1), npVar (col A 2), npVar (col A 3),
          npVar (col A 4)].map (fun q : ℚ => (q : ℝ))) ++
      ([auto_covariance (col A 1) 1, auto_covariance (col A 2) 1,
          auto_covariance (col A 3) 1,
          auto_covariance (col A 4) 1].map (fun q : ℚ => (q : ℝ))) ++
      [corrPair (col A 1) (col A 2), corrPair (col A 1) (col A 3),
        corrPair (col A 1) (col A 4), corrPair (col A 2) (col A 3),
        corrPair (col A 2) (col A 4), corrPair (col A 3) (col A 4)] ++
      [cross_covariance (col A 1) (col A 2),
        cross_covariance (col A 1) (col A 3),
        cross_covariance (col A 1) (col A 4),
        cross_covariance (col A 2) (col A 3),
        cross_covariance (col A 2) (col A 4),
        cross_covariance (col A 3) (col A 4)] := by
    simp only [statisticsRow, h5]
    rfl
  exact ⟨List.mem_map_of_mem _ hA, hrow, by rw [hrow]; rfl⟩

/-- Witness for `statisticsRow_layout` at the one-trajectory batch holding
the single-row trajectory `[[0, 1, 2, 3, 4]]`. -/
theorem statisticsRow_layout_witness :
    statisticsRow [[0, 1, 2, 3, 4]] ∈ statisticsPre [[[0, 1, 2, 3, 4]]] ∧
    statisticsRow [[0, 1, 2, 3, 4]] =
      ([npMean (col [[0, 1, 2, 3, 4]] 1), npMean (col [[0, 1, 2, 3, 4]] 2),
          npMean (col [[0, 1, 2, 3, 4]] 3),
          npMean (col [[0, 1, 2, 3, 4]] 4)].map (fun q : ℚ => (q : ℝ))) ++
      ([npVar (col [[0, 1, 2, 3, 4]] 1), npVar (col [[0, 1, 2, 3, 4]] 2),
          npVar (col [[0, 1, 2, 3, 4]] 3),
          npVar (col [[0, 1, 2, 3, 4]] 4)].map (fun q : ℚ => (q : ℝ))) ++
      ([auto_covariance (col [[0, 1, 2, 3, 4]] 1) 1,
          auto_covariance (col [[0, 1, 2, 3, 4]] 2) 1,
          auto_covariance (col [[0, 1, 2, 3, 4]] 3) 1,
          auto_covariance (col [[0, 1, 2, 3, 4]] 4) 1].map
            (fun q : ℚ => (q : ℝ))) ++
      [corrPair (col [[0, 1, 2, 3, 4]] 1) (col [[0, 1, 2, 3, 4]] 2),
        corrPair (col [[0, 1, 2, 3, 4]] 1) (col [[0, 1, 2, 3, 4]] 3),
        corrPair (col [[0, 1, 2, 3, 4]] 1) (col [[0, 1, 2, 3, 4]] 4),
        corrPair (col [[0, 1, 2, 3, 4]] 2) (col [[0, 1, 2, 3, 4]] 3),
        corrPair (col [[0, 1, 2, 3, 4]] 2) (col [[0, 1, 2, 3, 4]] 4),
        corrPair (col [[0, 1, 2, 3, 4]] 3) (col [[0, 1, 2, 3, 4]] 4)] ++
      [cross_covariance (col [[0, 1, 2, 3, 4]] 1) (col [[0, 1, 2, 3, 4]] 2),
        cross_covariance (col [[0, 1, 2, 3, 4]] 1) (col [[0, 1, 2, 3, 4]] 3),
        cross_covariance (col [[0, 1, 2, 3, 4]] 1) (col [[0, 1, 2, 3, 4]] 4),
        cross_covariance (col [[0, 1, 2, 3, 4]] 2) (col [[0, 1, 2, 3, 4]] 3),
        cross_covariance (col [[0, 1, 2, 3, 4]] 2) (col [[0, 1, 2, 3, 4]] 4),
        cross_covariance (col [[0, 1, 2, 3, 4]] 3)
          (col [[0, 1, 2, 3, 4]] 4)] ∧
    (statisticsRow [[0, 1, 2, 3, 4]]).length = 24 :=
  statisticsRow_layout [[[0, 1, 2, 3, 4]]] [[0, 1, 2, 3, 4]]
    (List.mem_singleton.mpr rfl) rfl

/-- Claim C10: the cross-covariance helper is not symmetric (witnessed at
`x = [0, 1, 2]`, `y = [1, 0, 0]`), the hard-coded pair list always has the
lower column index first, and the `s5` block of a `D = 5` statistics row
applies `_cross_covariance` with the lower-indexed column as `x` and the
higher-indexed column as `y`. -/
theorem cross_covariance_order (A : List (List ℚ))
    (h5 : (A.headD []).length = 5) :
    cross_covariance [0, 1, 2] [1, 0, 0] ≠
      cross_covariance [1, 0, 0] [0, 1, 2] ∧
    (∀ p ∈ II, p.1 < p.2) ∧
    (statisticsRow A).drop 18 =
      II.map (fun p => cross_covariance (col A p.1) (col A p.2)) := by
  have ha : cross_covariance [0, 1, 2] [1, 0, 0] = 0 := by
    unfold cross_covariance
    rw [show crossNum [0, 1, 2] [1, 0, 0] = 0 from by
      norm_num [crossNum, npMean, insertFront, insertBeforeLast]]
    simp
  have hb : cross_covariance [1, 0, 0] [0, 1, 2] < 0 := by
    unfold cross_covariance
    rw [show crossNum [1, 0, 0] [0, 1, 2] = -1 / 4 from by
        norm_num [crossNum, npMean, insertFront, insertBeforeLast],
      show crossDen [1, 0, 0] [0, 1, 2] = 1 / 8 from by
        norm_num [crossDen, npVar, npMean, insertFront, insertBeforeLast]]
    apply div_neg_of_neg_of_pos
    · norm_num
    · exact Real.sqrt_pos.mpr (by norm_num)
  refine ⟨by rw [ha]; exact (ne_of_lt hb).symm, by decide, ?_⟩
  simp only [statisticsRow, h5]
  rfl

/-- Witness for `cross_covariance_order` at the one-row trajectory
`[[0, 1, 2, 3, 4]]`. -/
theorem cross_covariance_order_witness :
    cross_covariance [0, 1, 2] [1, 0, 0] ≠
      cross_covariance [1, 0, 0] [0, 1, 2] ∧
    (∀ p ∈ II, p.1 < p.2) ∧
    (statisticsRow [[0, 1, 2, 3, 4]]).drop 18 =
      II.map (fun p =>
        cross_covariance (col [[0, 1, 2, 3, 4]] p.1)
          (col [[0, 1, 2, 3, 4]] p.2)) :=
  cross_covariance_order [[0, 1, 2, 3, 4]] rfl

/-- Counterexample to claim C6: on the trajectory with two identical rows
`[2, 2, 2, 2, 2]` every column is constant (variance 0), yet the
cross-covariance entry for the pair `(1, 2)` is NOT NaN: its padded series
`[1, 2, 2]` and `[2, 1, 2]` have nonzero variance, the denominator radicand
is `4/81 > 0`, and the entry evaluates to the real number `-1/2`. -/
theorem constant_columns_cross_not_nan :
    npVar (col (List.replicate 2 ([2, 2, 2, 2, 2] : List ℚ)) 1) = 0 ∧
    crossNum (col (List.replicate 2 ([2, 2, 2, 2, 2] : List ℚ)) 1)
        (col (List.replicate 2 ([2, 2, 2, 2, 2] : List ℚ)) 2) = -1 / 9 ∧
    crossDen (col (List.replicate 2 ([2, 2, 2, 2, 2] : List ℚ)) 1)
        (col (List.replicate 2 ([2, 2, 2, 2, 2] : List ℚ)) 2) = 4 / 81 ∧
    ieeeNaN
        (crossNum (col (List.replicate 2 ([2, 2, 2, 2, 2] : List ℚ)) 1)
          (col (List.replicate 2 ([2, 2, 2, 2, 2] : List ℚ)) 2))
        (crossDen (col (List.replicate 2 ([2, 2, 2, 2, 2] : List ℚ)) 1)
          (col (List.replicate 2 ([2, 2, 2, 2, 2] : List ℚ)) 2)) = false ∧
    cross_covariance (col (List.replicate 2 ([2, 2, 2, 2, 2] : List ℚ)) 1)
        (col (List.replicate 2 ([2, 2, 2, 2, 2] : List ℚ)) 2) = -1 / 2 := by
  have hcol1 : col (List.replicate 2 ([2, 2, 2, 2, 2] : List ℚ)) 1 =
      [2, 2] := rfl
  have hcol2 : col (List.replicate 2 ([2, 2, 2, 2, 2] : List ℚ)) 2 =
      [2, 2] := rfl
  rw [hcol1, hcol2]
  have hv : npVar ([2, 2] : List ℚ) = 0 := by norm_num [npVar, npMean]
  have hn : crossNum ([2, 2] : List ℚ) [2, 2] = -1 / 9 := by
    norm_num [crossNum, npMean, insertFront, insertBeforeLast]
  have hd : crossDen ([2, 2] : List ℚ) [2, 2] = 4 / 81 := by
    norm_num [crossDen, npVar, npMean, insertFront, insertBeforeLast]
  refine ⟨hv, hn, hd, ?_, ?_⟩
  · rw [hn, hd]
    simp only [ieeeNaN, decide_eq_false_iff_not]
    push_neg
    norm_num
  · unfold cross_covariance
    rw [hn, hd, show ((4 / 81 : ℚ) : ℝ) = (2 / 9 : ℝ) ^ 2 by norm_num,
      Real.sqrt_sq (by norm_num : (0 : ℝ) ≤ 2 / 9)]
    norm_num

/-- Claim C6 as amended: for a trajectory whose rows are all equal (every
column constant over time), each column's variance entry is 0 and each of the
six correlation entries is NaN under IEEE evaluation (numerator and
denominator both exactly 0); the cross-covariance entries, by contrast, need
not be NaN (see the counterexample). -/
theorem constant_columns_var_nan (T : ℕ) (r : List ℚ) (hT : 2 ≤ T)
    (hr : r.length = 5) :
    (∀ j, npVar (col (List.replicate T r) j) = 0) ∧
    (∀ p ∈ II,
      corrNum (col (List.replicate T r) p.1)
          (col (List.replicate T r) p.2) = 0 ∧
      corrDen (col (List.replicate T r) p.1)
          (col (List.replicate T r) p.2) = 0 ∧
      ieeeNaN
          (corrNum (col (List.replicate T r) p.1)
            (col (List.replicate T r) p.2))
          (corrDen (col (List.replicate T r) p.1)
            (col (List.replicate T r) p.2)) = true) := by
  have hT0 : 0 < T := lt_of_lt_of_le (by norm_num) hT
  have hvar : ∀ j, npVar (col (List.replicate T r) j) = 0 := fun j => by
    rw [col_replicate]
    exact npVar_replicate T hT0 _
  refine ⟨hvar, fun p hp => ?_⟩
  have hnum : corrNum (col (List.replicate T r) p.1)
      (col (List.replicate T r) p.2) = 0 := by
    rw [col_replicate, col_replicate]
    exact corrNum_replicate T hT0 _ _
  have hden : corrDen (col (List.replicate T r) p.1)
      (col (List.replicate T r) p.2) = 0 := by
    unfold corrDen
    rw [hvar, hvar, mul_zero]
  refine ⟨hnum, hden, ?_⟩
  rw [hnum, hden]
  simp [ieeeNaN]

/-- Witness for `constant_columns_var_nan` at `T = 2`,
`r = [1, 1, 1, 1, 1]`. -/
theorem constant_columns_var_nan_witness :
    (∀ j, npVar (col (List.replicate 2 ([1, 1, 1, 1, 1] : List ℚ)) j) = 0) ∧
    (∀ p ∈ II,
      corrNum (col (List.replicate 2 ([1, 1, 1, 1, 1] : List ℚ)) p.1)
          (col (List.replicate 2 ([1, 1, 1, 1, 1] : List ℚ)) p.2) = 0 ∧
      corrDen (col (List.replicate 2 ([1, 1, 1, 1, 1] : List ℚ)) p.1)
          (col (List.replicate 2 ([1, 1, 1, 1, 1] : List ℚ)) p.2) = 0 ∧
      ieeeNaN
          (corrNum (col (List.replicate 2 ([1, 1, 1, 1, 1] : List ℚ)) p.1)
            (col (List.replicate 2 ([1, 1, 1, 1, 1] : List ℚ)) p.2))
          (corrDen (col (List.replicate 2 ([1, 1, 1, 1, 1] : List ℚ)) p.1)
            (col (List.replicate 2 ([1, 1, 1, 1, 1] : List ℚ)) p.2)) =
        true) :=
  constant_columns_var_nan 2 [1, 1, 1, 1, 1] (by norm_num) rfl

end Platelets
